import Mathlib

/-!
A verification development for the cutio non-linear video editing core.

The Rust source is shallowly embedded: f64 times become rationals, Vec
becomes List, HashMap becomes an association list with first-match lookup,
and the external GStreamer decoder becomes an oracle function parameter.
Field and function names follow the source (src/types/media.rs,
src/types/track.rs, src/types/timeline.rs, src/ops/clip_ops.rs,
src/renderer/timeline_renderer.rs, src/renderer/time_player_bridge.rs).
-/

/-- Video format metadata, from src/types/media.rs. -/
structure VideoMetadata where
  resolution : Nat × Nat
  frame_rate : ℚ
  codec : String
deriving DecidableEq

/-- A placed video clip, from src/types/media.rs. -/
structure VideoClip where
  id : String
  asset_path : String
  in_point : ℚ
  out_point : ℚ
  start_time : ℚ
  duration : ℚ
  metadata : VideoMetadata
deriving DecidableEq

/-- Audio format metadata, from src/types/media.rs. -/
structure AudioMetadata where
  sample_rate : Nat
  channels : Nat
  codec : String
  bitrate : Nat
deriving DecidableEq

/-- A placed audio clip, from src/types/media.rs. -/
structure AudioClip where
  id : String
  asset_path : String
  in_point : ℚ
  out_point : ℚ
  start_time : ℚ
  duration : ℚ
  metadata : AudioMetadata
deriving DecidableEq

/-- The Clip accessor trait from src/types/media.rs. -/
class Clip (T : Type) where
  id : T → String
  asset_path : T → String
  in_point : T → ℚ
  out_point : T → ℚ
  start_time : T → ℚ
  duration : T → ℚ

/-- The ClipSplit setter trait from src/ops/clip_ops.rs. -/
class ClipSplit (T : Type) extends Clip T where
  set_id : T → String → T
  set_in_point : T → ℚ → T
  set_out_point : T → ℚ → T
  set_start_time : T → ℚ → T
  set_duration : T → ℚ → T
  split : T → T × T

instance VideoClip.instClipSplit : ClipSplit VideoClip where
  id c := c.id
  asset_path c := c.asset_path
  in_point c := c.in_point
  out_point c := c.out_point
  start_time c := c.start_time
  duration c := c.duration
  set_id c v := { c with id := v }
  set_in_point c v := { c with in_point := v }
  set_out_point c v := { c with out_point := v }
  set_start_time c v := { c with start_time := v }
  set_duration c v := { c with duration := v }
  split c := (c, c)

instance AudioClip.instClipSplit : ClipSplit AudioClip where
  id c := c.id
  asset_path c := c.asset_path
  in_point c := c.in_point
  out_point c := c.out_point
  start_time c := c.start_time
  duration c := c.duration
  set_id c v := { c with id := v }
  set_in_point c v := { c with in_point := v }
  set_out_point c v := { c with out_point := v }
  set_start_time c v := { c with start_time := v }
  set_duration c v := { c with duration := v }
  split c := (c, c)

/-- cut_clip_at from src/ops/clip_ops.rs: cuts a clip at the given playhead
position, returning the two new clips if the cut is valid, and none if the
playhead is outside the clip range. -/
def cut_clip_at {T : Type} [ClipSplit T] (clip : T) (playhead : ℚ) : Option (T × T) :=
  let clip_start := Clip.start_time clip
  let clip_end := Clip.start_time clip + Clip.duration clip
  if playhead ≤ clip_start ∨ playhead ≥ clip_end then
    none
  else
    let lr := ClipSplit.split clip
    let left := lr.1
    let right := lr.2
    let left := ClipSplit.set_id left (Clip.id clip ++ "_left")
    let left := ClipSplit.set_in_point left (Clip.in_point clip)
    let left := ClipSplit.set_out_point left (Clip.in_point clip + (playhead - clip_start))
    let left := ClipSplit.set_start_time left clip_start
    let left := ClipSplit.set_duration left (playhead - clip_start)
    let right := ClipSplit.set_id right (Clip.id clip ++ "_right")
    let right := ClipSplit.set_in_point right (Clip.in_point clip + (playhead - clip_start))
    let right := ClipSplit.set_out_point right (Clip.out_point clip)
    let right := ClipSplit.set_start_time right playhead
    let right := ClipSplit.set_duration right (clip_end - playhead)
    some (left, right)

/-- Sample video clip mirroring the repository tests. -/
def vclip_sample : VideoClip :=
  { id := "vc1", asset_path := "video.mp4", in_point := 0, out_point := 10,
    start_time := 0, duration := 10,
    metadata := { resolution := (1920, 1080), frame_rate := 30, codec := "h264" } }

/-- Sample audio clip mirroring the repository tests. -/
def aclip_sample : AudioClip :=
  { id := "ac1", asset_path := "audio.wav", in_point := 0, out_point := 8,
    start_time := 2, duration := 8,
    metadata := { sample_rate := 48000, channels := 2, codec := "pcm", bitrate := 1536 } }

/-- A video track, from src/types/track.rs. -/
structure VideoTrack where
  id : String
  name : String
  clips : List VideoClip
  muted : Bool
deriving DecidableEq

/-- An audio track, from src/types/track.rs. -/
structure AudioTrack where
  id : String
  name : String
  clips : List AudioClip
  muted : Bool
deriving DecidableEq

/-- The Track variant type, from src/types/track.rs. -/
inductive Track where
  | video : VideoTrack → Track
  | audio : AudioTrack → Track
deriving DecidableEq

/-- Track.is_video from src/types/timeline.rs. -/
def Track.is_video : Track → Bool
  | Track.video _ => true
  | Track.audio _ => false

/-- The Timeline, from src/types/timeline.rs. -/
structure Timeline where
  tracks : List Track
  duration : ℚ
  frame_rate : ℚ
  resolution : Nat × Nat
deriving DecidableEq

/-- Timeline.new from src/types/timeline.rs. -/
def Timeline.new : Timeline :=
  { tracks := [], duration := 0, frame_rate := 30, resolution := (1920, 1080) }

/-- The ActiveClip variant returned by interval queries, from src/types/timeline.rs. -/
inductive ActiveClip where
  | video : VideoClip → ActiveClip
  | audio : AudioClip → ActiveClip
deriving DecidableEq

/-- VideoClip.is_active_at from src/types/timeline.rs:
time >= start_time && time < start_time + duration. -/
def VideoClip.is_active_at (c : VideoClip) (time : ℚ) : Bool :=
  decide (time ≥ c.start_time) && decide (time < c.start_time + c.duration)

/-- Timeline.active_video_clips_at from src/types/timeline.rs: the video
tracks in order, each contributing its clips that are active at the time. -/
def Timeline.active_video_clips_at (tl : Timeline) (time : ℚ) : List VideoClip :=
  (tl.tracks.filterMap fun track =>
    match track with
    | Track.video video_track => some video_track
    | _ => none).flatMap
    fun video_track => video_track.clips.filter fun clip => clip.is_active_at time

/-- Timeline.active_clips_at from src/types/timeline.rs: a loop over tracks
pushing every clip (video or audio) whose half-open interval holds the time. -/
def Timeline.active_clips_at (tl : Timeline) (time : ℚ) : List ActiveClip :=
  tl.tracks.foldl
    (fun result track =>
      match track with
      | Track.video video_track =>
        video_track.clips.foldl
          (fun result clip =>
            if clip.start_time ≤ time ∧ time < clip.start_time + clip.duration then
              result ++ [ActiveClip.video clip]
            else result)
          result
      | Track.audio audio_track =>
        audio_track.clips.foldl
          (fun result clip =>
            if clip.start_time ≤ time ∧ time < clip.start_time + clip.duration then
              result ++ [ActiveClip.audio clip]
            else result)
          result)
    []

/-- Timeline.clips_in_range from src/types/timeline.rs: a loop over tracks
pushing every clip whose interval overlaps the query range under the test
clip_end > start && clip_start < end. -/
def Timeline.clips_in_range (tl : Timeline) (start end_ : ℚ) : List ActiveClip :=
  tl.tracks.foldl
    (fun result track =>
      match track with
      | Track.video video_track =>
        video_track.clips.foldl
          (fun result clip =>
            let clip_start := clip.start_time
            let clip_end := clip.start_time + clip.duration
            if clip_end > start ∧ clip_start < end_ then
              result ++ [ActiveClip.video clip]
            else result)
          result
      | Track.audio audio_track =>
        audio_track.clips.foldl
          (fun result clip =>
            let clip_start := clip.start_time
            let clip_end := clip.start_time + clip.duration
            if clip_end > start ∧ clip_start < end_ then
              result ++ [ActiveClip.audio clip]
            else result)
          result)
    []

/-- Timeline.clips_on_track from src/types/timeline.rs. -/
def Timeline.clips_on_track (tl : Timeline) (track_id : String) : Option (List ActiveClip) :=
  (tl.tracks.find? fun t =>
    match t with
    | Track.video v => v.id == track_id
    | Track.audio a => a.id == track_id).map
    fun track =>
      match track with
      | Track.video v => v.clips.map ActiveClip.video
      | Track.audio a => a.clips.map ActiveClip.audio

/-- The inner loop of split_clip_at_playhead for a video track
(src/types/timeline.rs): scan the clips in order; at the first clip whose
open interval strictly holds the playhead and whose cut succeeds, replace
that clip by the two halves (remove at i, insert right then left at i). -/
def split_clips_video (playhead : ℚ) : List VideoClip → Option (List VideoClip)
  | [] => none
  | clip :: rest =>
    if playhead > clip.start_time ∧ playhead < clip.start_time + clip.duration then
      match cut_clip_at clip playhead with
      | some (left, right) => some (left :: right :: rest)
      | none => (split_clips_video playhead rest).map (clip :: ·)
    else (split_clips_video playhead rest).map (clip :: ·)

/-- The inner loop of split_clip_at_playhead for an audio track
(src/types/timeline.rs), same scan as the video case. -/
def split_clips_audio (playhead : ℚ) : List AudioClip → Option (List AudioClip)
  | [] => none
  | clip :: rest =>
    if playhead > clip.start_time ∧ playhead < clip.start_time + clip.duration then
      match cut_clip_at clip playhead with
      | some (left, right) => some (left :: right :: rest)
      | none => (split_clips_audio playhead rest).map (clip :: ·)
    else (split_clips_audio playhead rest).map (clip :: ·)

/-- The outer loop of split_clip_at_playhead (src/types/timeline.rs): visit
tracks in order; on a track whose id matches, try to split its clip list;
the first success returns immediately with true, otherwise keep scanning. -/
def split_tracks (track_id : String) (playhead : ℚ) : List Track → List Track × Bool
  | [] => ([], false)
  | track :: rest =>
    match track with
    | Track.video video_track =>
      if video_track.id = track_id then
        match split_clips_video playhead video_track.clips with
        | some clips => (Track.video { video_track with clips := clips } :: rest, true)
        | none =>
          let r := split_tracks track_id playhead rest
          (Track.video video_track :: r.1, r.2)
      else
        let r := split_tracks track_id playhead rest
        (Track.video video_track :: r.1, r.2)
    | Track.audio audio_track =>
      if audio_track.id = track_id then
        match split_clips_audio playhead audio_track.clips with
        | some clips => (Track.audio { audio_track with clips := clips } :: rest, true)
        | none =>
          let r := split_tracks track_id playhead rest
          (Track.audio audio_track :: r.1, r.2)
      else
        let r := split_tracks track_id playhead rest
        (Track.audio audio_track :: r.1, r.2)

/-- Timeline.split_clip_at_playhead from src/types/timeline.rs: splits the
first clip found at the given playhead on the specified track, returning the
mutated timeline and whether a split occurred. -/
def Timeline.split_clip_at_playhead (tl : Timeline) (track_id : String) (playhead : ℚ) :
    Timeline × Bool :=
  let r := split_tracks track_id playhead tl.tracks
  ({ tl with tracks := r.1 }, r.2)

/-- Sample video track mirroring the repository tests. -/
def vtrack_sample : VideoTrack :=
  { id := "vt1", name := "Video Track 1", clips := [vclip_sample], muted := false }

/-- Sample audio track mirroring the repository tests. -/
def atrack_sample : AudioTrack :=
  { id := "at1", name := "Audio Track 1", clips := [aclip_sample], muted := false }

/-- Sample timeline with one video and one audio track, as in the repository
tests. -/
def timeline_sample : Timeline :=
  { tracks := [Track.video vtrack_sample, Track.audio atrack_sample],
    duration := 10, frame_rate := 30, resolution := (1920, 1080) }

/-- A decoded video frame, from src/renderer/timeline_renderer.rs.  Pixel
bytes are modelled as naturals. -/
structure VideoFrame where
  data : List Nat
  width : Nat
  height : Nat
  timestamp : ℚ
  frame_number : Nat
deriving DecidableEq

/-- The external frame decoder (decode_video_frame and its GStreamer
pipeline) modelled at its interface boundary: asset path, local timestamp
and output size give an optional pixel buffer. -/
abbrev Decoder : Type := String → ℚ → Nat → Nat → Option (List Nat)

/-- The TimelineRenderer, from src/renderer/timeline_renderer.rs.  The
HashMap frame cache becomes an association list with the newest entry
first, which has the same lookup/insert semantics. -/
structure TimelineRenderer where
  timeline : Timeline
  width : Nat
  height : Nat
  frame_rate : ℚ
  frame_cache : List (Nat × VideoFrame)
deriving DecidableEq

/-- The frame number computed by render_frame: the Rust expression
`(time * frame_rate) as u64`, a saturating float-to-integer cast
(truncation toward zero, clamped to the u64 range; every negative product
gives 0, and for nonnegative products truncation agrees with the floor). -/
def frame_number_of (time frame_rate : ℚ) : Nat :=
  min (Int.toNat ⌊time * frame_rate⌋) (2 ^ 64 - 1)

/-- The clip selection inside render_frame: find the first active clip that
is a video clip. -/
def first_video_clip (clips : List ActiveClip) : Option VideoClip :=
  match clips.find? (fun c => match c with | ActiveClip.video _ => true | _ => false) with
  | some (ActiveClip.video clip) => some clip
  | _ => none

/-- render_frame from src/renderer/timeline_renderer.rs: check the cache;
on a miss take the active clips, decode the first active video clip at
local_time = time - start_time + in_point into a width*height*4 buffer that
stays zero-filled when no clip is active, decoding fails or the decoded
size mismatches; insert the result into the cache.  Returns the frame, the
updated renderer and whether the decoder was invoked. -/
def TimelineRenderer.render_frame (self : TimelineRenderer) (decode : Decoder) (time : ℚ) :
    VideoFrame × TimelineRenderer × Bool :=
  let frame_number := frame_number_of time self.frame_rate
  match self.frame_cache.lookup frame_number with
  | some frame => (frame, self, false)
  | none =>
    let active_clips := self.timeline.active_clips_at time
    let data0 : List Nat := List.replicate (self.width * self.height * 4) 0
    match first_video_clip active_clips with
    | some clip =>
      let local_time := time - clip.start_time + clip.in_point
      let data :=
        match decode clip.asset_path local_time self.width self.height with
        | some frame_data => if frame_data.length = data0.length then frame_data else data0
        | none => data0
      let output : VideoFrame :=
        { data := data, width := self.width, height := self.height,
          timestamp := time, frame_number := frame_number }
      (output, { self with frame_cache := (frame_number, output) :: self.frame_cache }, true)
    | none =>
      let output : VideoFrame :=
        { data := data0, width := self.width, height := self.height,
          timestamp := time, frame_number := frame_number }
      (output, { self with frame_cache := (frame_number, output) :: self.frame_cache }, false)

/-- clear_cache from src/renderer/timeline_renderer.rs. -/
def TimelineRenderer.clear_cache (self : TimelineRenderer) : TimelineRenderer :=
  { self with frame_cache := [] }

/-- PlaybackState from src/types/playback_state.rs. -/
structure PlaybackState where
  playhead : ℚ
  is_playing : Bool
  loop_start : Option ℚ
  loop_end : Option ℚ
  volume : ℚ
  playback_rate : ℚ
deriving DecidableEq

/-- PlaybackState.new from src/types/playback_state.rs. -/
def PlaybackState.new : PlaybackState :=
  { playhead := 0, is_playing := false, loop_start := none, loop_end := none,
    volume := 1, playback_rate := 1 }

/-- TimelinePlayerBridge from src/renderer/time_player_bridge.rs.  The
Instant wall clock becomes rational seconds passed in explicitly as `now`. -/
structure TimelinePlayerBridge where
  timeline : Timeline
  renderer : TimelineRenderer
  playback_state : PlaybackState
  last_update : ℚ
  video_buffer : List VideoFrame
deriving DecidableEq

/-- update from src/renderer/time_player_bridge.rs: while playing, advance
the playhead by elapsed wall seconds times the playback rate
(Instant::duration_since saturates below at zero); reset last_update; clamp
the playhead to [0, max(timeline.duration, 1)]; render the frame at the
playhead and replace the single-slot buffer. -/
def TimelinePlayerBridge.update (self : TimelinePlayerBridge) (decode : Decoder) (now : ℚ) :
    TimelinePlayerBridge :=
  let playhead :=
    if self.playback_state.is_playing then
      let elapsed := max (now - self.last_update) 0
      self.playback_state.playhead + elapsed * self.playback_state.playback_rate
    else self.playback_state.playhead
  let max_time := max self.timeline.duration 1
  let playhead := min (max playhead 0) max_time
  let r := self.renderer.render_frame decode playhead
  { self with
    playback_state := { self.playback_state with playhead := playhead },
    last_update := now,
    renderer := r.2.1,
    video_buffer := [r.1] }

/-- seek from src/renderer/time_player_bridge.rs: clamp the target time to
[0, max(timeline.duration, 1)], set the playhead, then call update(). -/
def TimelinePlayerBridge.seek (self : TimelinePlayerBridge) (decode : Decoder) (time now : ℚ) :
    TimelinePlayerBridge :=
  let self := { self with
    playback_state := { self.playback_state with
      playhead := min (max time 0) (max self.timeline.duration 1) } }
  self.update decode now

/-- play from src/renderer/time_player_bridge.rs. -/
def TimelinePlayerBridge.play (self : TimelinePlayerBridge) (now : ℚ) : TimelinePlayerBridge :=
  { self with
    playback_state := { self.playback_state with is_playing := true },
    last_update := now }

/-- pause from src/renderer/time_player_bridge.rs. -/
def TimelinePlayerBridge.pause (self : TimelinePlayerBridge) : TimelinePlayerBridge :=
  { self with playback_state := { self.playback_state with is_playing := false } }

/-- current_frame from src/renderer/time_player_bridge.rs. -/
def TimelinePlayerBridge.current_frame (self : TimelinePlayerBridge) : Option VideoFrame :=
  self.video_buffer.getLast?

/-- Specification-side helper: the contribution of one track to
active_clips_at, in clip order. -/
def track_active_clips (time : ℚ) : Track → List ActiveClip
  | Track.video video_track =>
    (video_track.clips.filter fun c =>
      decide (c.start_time ≤ time ∧ time < c.start_time + c.duration)).map ActiveClip.video
  | Track.audio audio_track =>
    (audio_track.clips.filter fun c =>
      decide (c.start_time ≤ time ∧ time < c.start_time + c.duration)).map ActiveClip.audio

/-- Specification-side helper: the contribution of one track to
clips_in_range, in clip order. -/
def track_range_clips (start end_ : ℚ) : Track → List ActiveClip
  | Track.video video_track =>
    (video_track.clips.filter fun c =>
      decide (c.start_time + c.duration > start ∧ c.start_time < end_)).map ActiveClip.video
  | Track.audio audio_track =>
    (audio_track.clips.filter fun c =>
      decide (c.start_time + c.duration > start ∧ c.start_time < end_)).map ActiveClip.audio

/-- Specification-side helper: the track has the queried id and holds a
clip whose open interval strictly contains the playhead. -/
def track_has_clip_at (track_id : String) (playhead : ℚ) : Track → Prop
  | Track.video video_track =>
    video_track.id = track_id ∧
      ∃ c ∈ video_track.clips, playhead > c.start_time ∧ playhead < c.start_time + c.duration
  | Track.audio audio_track =>
    audio_track.id = track_id ∧
      ∃ c ∈ audio_track.clips, playhead > c.start_time ∧ playhead < c.start_time + c.duration

/-- Specification-side helper: the second track is the first one with the
first clip strictly containing the playhead replaced in place by the two
halves produced by cut_clip_at, everything else unchanged. -/
def track_split_result (playhead : ℚ) : Track → Track → Prop
  | Track.video video_track, Track.video vt2 =>
    vt2.id = video_track.id ∧ vt2.name = video_track.name ∧ vt2.muted = video_track.muted ∧
    ∃ pre clip post left right,
      video_track.clips = pre ++ clip :: post ∧
      (∀ c ∈ pre, ¬(playhead > c.start_time ∧ playhead < c.start_time + c.duration)) ∧
      (playhead > clip.start_time ∧ playhead < clip.start_time + clip.duration) ∧
      cut_clip_at clip playhead = some (left, right) ∧
      vt2.clips = pre ++ left :: right :: post
  | Track.audio audio_track, Track.audio at2 =>
    at2.id = audio_track.id ∧ at2.name = audio_track.name ∧ at2.muted = audio_track.muted ∧
    ∃ pre clip post left right,
      audio_track.clips = pre ++ clip :: post ∧
      (∀ c ∈ pre, ¬(playhead > c.start_time ∧ playhead < c.start_time + c.duration)) ∧
      (playhead > clip.start_time ∧ playhead < clip.start_time + clip.duration) ∧
      cut_clip_at clip playhead = some (left, right) ∧
      at2.clips = pre ++ left :: right :: post
  | _, _ => False

/-- A decoder that always fails, for concrete evaluations. -/
def decoder_none : Decoder := fun _ _ _ _ => none

/-- Sample renderer over the sample timeline with a tiny output size. -/
def renderer_sample : TimelineRenderer :=
  { timeline := timeline_sample, width := 2, height := 1, frame_rate := 30, frame_cache := [] }

/-- Sample playing bridge over the sample timeline. -/
def bridge_sample : TimelinePlayerBridge :=
  { timeline := timeline_sample, renderer := renderer_sample,
    playback_state := { playhead := 3, is_playing := true, loop_start := none,
                        loop_end := none, volume := 1, playback_rate := 1 },
    last_update := 0, video_buffer := [] }

/-- A malformed clip: out_point at or before in_point and a negative
start_time.  Nothing in the source rejects it. -/
def malformed_clip : VideoClip :=
  { id := "bad", asset_path := "video.mp4", in_point := 5, out_point := 0,
    start_time := -1, duration := 10,
    metadata := { resolution := (1920, 1080), frame_rate := 30, codec := "h264" } }

/-- A timeline holding the malformed clip. -/
def timeline_with_malformed : Timeline :=
  { tracks := [Track.video { id := "vt_bad", name := "Bad", clips := [malformed_clip], muted := false }],
    duration := 10, frame_rate := 30, resolution := (1920, 1080) }

-- Concrete evaluations of the embedded operations on the sample timeline.
example : timeline_sample.active_clips_at 5 =
    [ActiveClip.video vclip_sample, ActiveClip.audio aclip_sample] := by with_unfolding_all rfl
example : (timeline_sample.active_clips_at 0).length = 1 := by with_unfolding_all rfl
example : timeline_sample.active_clips_at 11 = [] := by with_unfolding_all rfl
example : timeline_sample.clips_in_range 0 0 = [] := by with_unfolding_all rfl
example : timeline_sample.clips_in_range 5 5 =
    [ActiveClip.video vclip_sample, ActiveClip.audio aclip_sample] := by with_unfolding_all rfl
example : timeline_sample.clips_in_range 7 3 =
    [ActiveClip.video vclip_sample, ActiveClip.audio aclip_sample] := by with_unfolding_all rfl
example : (timeline_sample.split_clip_at_playhead "vt1" 4).2 = true := by with_unfolding_all rfl
example : (timeline_sample.split_clip_at_playhead "vt1" 0).2 = false := by with_unfolding_all rfl
example : (timeline_sample.split_clip_at_playhead "at1" 6).2 = true := by with_unfolding_all rfl
example : timeline_sample.active_video_clips_at 5 = [vclip_sample] := by with_unfolding_all rfl
example : timeline_sample.clips_on_track "notrack" = none := by with_unfolding_all rfl

/-- C1: for a playhead strictly inside the clip interval, cut_clip_at returns
some (left, right) with the specified ids, source points, start times and
durations; the durations add back to the original duration, the cut point
joins (left.out_point = right.in_point), and metadata is copied into both
halves.  Stated for both clip kinds. -/
theorem cut_clip_at_inside :
    (∀ (clip : VideoClip) (playhead : ℚ),
      clip.start_time < playhead → playhead < clip.start_time + clip.duration →
      ∃ left right, cut_clip_at clip playhead = some (left, right) ∧
        left.id = clip.id ++ "_left" ∧
        left.in_point = clip.in_point ∧
        left.out_point = clip.in_point + (playhead - clip.start_time) ∧
        left.start_time = clip.start_time ∧
        left.duration = playhead - clip.start_time ∧
        right.id = clip.id ++ "_right" ∧
        right.in_point = clip.in_point + (playhead - clip.start_time) ∧
        right.out_point = clip.out_point ∧
        right.start_time = playhead ∧
        right.duration = clip.start_time + clip.duration - playhead ∧
        left.duration + right.duration = clip.duration ∧
        left.out_point = right.in_point ∧
        left.metadata = clip.metadata ∧
        right.metadata = clip.metadata) ∧
    (∀ (clip : AudioClip) (playhead : ℚ),
      clip.start_time < playhead → playhead < clip.start_time + clip.duration →
      ∃ left right, cut_clip_at clip playhead = some (left, right) ∧
        left.id = clip.id ++ "_left" ∧
        left.in_point = clip.in_point ∧
        left.out_point = clip.in_point + (playhead - clip.start_time) ∧
        left.start_time = clip.start_time ∧
        left.duration = playhead - clip.start_time ∧
        right.id = clip.id ++ "_right" ∧
        right.in_point = clip.in_point + (playhead - clip.start_time) ∧
        right.out_point = clip.out_point ∧
        right.start_time = playhead ∧
        right.duration = clip.start_time + clip.duration - playhead ∧
        left.duration + right.duration = clip.duration ∧
        left.out_point = right.in_point ∧
        left.metadata = clip.metadata ∧
        right.metadata = clip.metadata) := by
  constructor
  · intro clip playhead h1 h2
    have hcond : ¬(playhead ≤ Clip.start_time clip ∨ playhead ≥ Clip.start_time clip + Clip.duration clip) := by
      push_neg
      exact ⟨h1, h2⟩
    refine ⟨{ id := clip.id ++ "_left", asset_path := clip.asset_path,
              in_point := clip.in_point,
              out_point := clip.in_point + (playhead - clip.start_time),
              start_time := clip.start_time, duration := playhead - clip.start_time,
              metadata := clip.metadata },
            { id := clip.id ++ "_right", asset_path := clip.asset_path,
              in_point := clip.in_point + (playhead - clip.start_time),
              out_point := clip.out_point,
              start_time := playhead,
              duration := clip.start_time + clip.duration - playhead,
              metadata := clip.metadata },
            ?_, rfl, rfl, rfl, rfl, rfl, rfl, rfl, rfl, rfl, rfl, by ring, rfl, rfl, rfl⟩
    simp only [cut_clip_at]
    rw [if_neg hcond]
    rfl
  · intro clip playhead h1 h2
    have hcond : ¬(playhead ≤ Clip.start_time clip ∨ playhead ≥ Clip.start_time clip + Clip.duration clip) := by
      push_neg
      exact ⟨h1, h2⟩
    refine ⟨{ id := clip.id ++ "_left", asset_path := clip.asset_path,
              in_point := clip.in_point,
              out_point := clip.in_point + (playhead - clip.start_time),
              start_time := clip.start_time, duration := playhead - clip.start_time,
              metadata := clip.metadata },
            { id := clip.id ++ "_right", asset_path := clip.asset_path,
              in_point := clip.in_point + (playhead - clip.start_time),
              out_point := clip.out_point,
              start_time := playhead,
              duration := clip.start_time + clip.duration - playhead,
              metadata := clip.metadata },
            ?_, rfl, rfl, rfl, rfl, rfl, rfl, rfl, rfl, rfl, rfl, by ring, rfl, rfl, rfl⟩
    simp only [cut_clip_at]
    rw [if_neg hcond]
    rfl

/-- C1 witness: the repository test clip vc1 cut at playhead 4. -/
theorem cut_clip_at_inside_witness :
    vclip_sample.start_time < 4 ∧ (4 : ℚ) < vclip_sample.start_time + vclip_sample.duration ∧
    ∃ left right, cut_clip_at vclip_sample 4 = some (left, right) ∧
      left.duration + right.duration = vclip_sample.duration ∧
      left.out_point = right.in_point := by
  have h1 : vclip_sample.start_time < 4 := by norm_num [vclip_sample]
  have h2 : (4 : ℚ) < vclip_sample.start_time + vclip_sample.duration := by norm_num [vclip_sample]
  obtain ⟨l, r, heq, _, _, _, _, _, _, _, _, _, _, hsum, hjoin, _, _⟩ :=
    cut_clip_at_inside.1 vclip_sample 4 h1 h2
  exact ⟨h1, h2, l, r, heq, hsum, hjoin⟩

/-- C2: cut_clip_at returns none exactly when the playhead is at or outside
the clip boundaries, for both clip kinds. -/
theorem cut_clip_at_none_iff :
    (∀ (clip : VideoClip) (playhead : ℚ),
      cut_clip_at clip playhead = none ↔
        playhead ≤ clip.start_time ∨ playhead ≥ clip.start_time + clip.duration) ∧
    (∀ (clip : AudioClip) (playhead : ℚ),
      cut_clip_at clip playhead = none ↔
        playhead ≤ clip.start_time ∨ playhead ≥ clip.start_time + clip.duration) := by
  constructor
  · intro clip playhead
    simp only [cut_clip_at]
    split_ifs with h
    · exact iff_of_true rfl h
    · exact iff_of_false (by simp) h
  · intro clip playhead
    simp only [cut_clip_at]
    split_ifs with h
    · exact iff_of_true rfl h
    · exact iff_of_false (by simp) h

lemma aux_active_fold_video (time : ℚ) (clips : List VideoClip) :
    ∀ (init : List ActiveClip),
      clips.foldl (fun result clip =>
          if clip.start_time ≤ time ∧ time < clip.start_time + clip.duration then
            result ++ [ActiveClip.video clip]
          else result) init
        = init ++ (clips.filter fun c =>
            decide (c.start_time ≤ time ∧ time < c.start_time + c.duration)).map ActiveClip.video := by
  induction clips with
  | nil => intro init; simp
  | cons clip rest ih =>
    intro init
    by_cases h : clip.start_time ≤ time ∧ time < clip.start_time + clip.duration
    · simp [List.foldl_cons, h, ih]
    · simp [List.foldl_cons, h, ih]

lemma aux_active_fold_audio (time : ℚ) (clips : List AudioClip) :
    ∀ (init : List ActiveClip),
      clips.foldl (fun result clip =>
          if clip.start_time ≤ time ∧ time < clip.start_time + clip.duration then
            result ++ [ActiveClip.audio clip]
          else result) init
        = init ++ (clips.filter fun c =>
            decide (c.start_time ≤ time ∧ time < c.start_time + c.duration)).map ActiveClip.audio := by
  induction clips with
  | nil => intro init; simp
  | cons clip rest ih =>
    intro init
    by_cases h : clip.start_time ≤ time ∧ time < clip.start_time + clip.duration
    · simp [List.foldl_cons, h, ih]
    · simp [List.foldl_cons, h, ih]

lemma aux_active_clips_at_eq (tl : Timeline) (time : ℚ) :
    tl.active_clips_at time = tl.tracks.flatMap (track_active_clips time) := by
  suffices h : ∀ (tracks : List Track) (init : List ActiveClip),
      tracks.foldl
        (fun result track =>
          match track with
          | Track.video video_track =>
            video_track.clips.foldl
              (fun result clip =>
                if clip.start_time ≤ time ∧ time < clip.start_time + clip.duration then
                  result ++ [ActiveClip.video clip]
                else result)
              result
          | Track.audio audio_track =>
            audio_track.clips.foldl
              (fun result clip =>
                if clip.start_time ≤ time ∧ time < clip.start_time + clip.duration then
                  result ++ [ActiveClip.audio clip]
                else result)
              result)
        init = init ++ tracks.flatMap (track_active_clips time) by
    simpa [Timeline.active_clips_at] using h tl.tracks []
  intro tracks
  induction tracks with
  | nil => intro init; simp
  | cons track rest ih =>
    intro init
    cases track with
    | video vt =>
      simp only [List.foldl_cons]
      rw [aux_active_fold_video time vt.clips init, ih]
      simp [track_active_clips]
    | audio a =>
      simp only [List.foldl_cons]
      rw [aux_active_fold_audio time a.clips init, ih]
      simp [track_active_clips]

lemma aux_range_fold_video (start end_ : ℚ) (clips : List VideoClip) :
    ∀ (init : List ActiveClip),
      clips.foldl (fun result clip =>
          let clip_start := clip.start_time
          let clip_end := clip.start_time + clip.duration
          if clip_end > start ∧ clip_start < end_ then
            result ++ [ActiveClip.video clip]
          else result) init
        = init ++ (clips.filter fun c =>
            decide (c.start_time + c.duration > start ∧ c.start_time < end_)).map ActiveClip.video := by
  induction clips with
  | nil => intro init; simp
  | cons clip rest ih =>
    intro init
    by_cases h : clip.start_time + clip.duration > start ∧ clip.start_time < end_
    · simp [List.foldl_cons, h, ih]
    · simp [List.foldl_cons, h, ih]

lemma aux_range_fold_audio (start end_ : ℚ) (clips : List AudioClip) :
    ∀ (init : List ActiveClip),
      clips.foldl (fun result clip =>
          let clip_start := clip.start_time
          let clip_end := clip.start_time + clip.duration
          if clip_end > start ∧ clip_start < end_ then
            result ++ [ActiveClip.audio clip]
          else result) init
        = init ++ (clips.filter fun c =>
            decide (c.start_time + c.duration > start ∧ c.start_time < end_)).map ActiveClip.audio := by
  induction clips with
  | nil => intro init; simp
  | cons clip rest ih =>
    intro init
    by_cases h : clip.start_time + clip.duration > start ∧ clip.start_time < end_
    · simp [List.foldl_cons, h, ih]
    · simp [List.foldl_cons, h, ih]

lemma aux_clips_in_range_eq (tl : Timeline) (start end_ : ℚ) :
    tl.clips_in_range start end_ = tl.tracks.flatMap (track_range_clips start end_) := by
  suffices h : ∀ (tracks : List Track) (init : List ActiveClip),
      tracks.foldl
        (fun result track =>
          match track with
          | Track.video video_track =>
            video_track.clips.foldl
              (fun result clip =>
                let clip_start := clip.start_time
                let clip_end := clip.start_time + clip.duration
                if clip_end > start ∧ clip_start < end_ then
                  result ++ [ActiveClip.video clip]
                else result)
              result
          | Track.audio audio_track =>
            audio_track.clips.foldl
              (fun result clip =>
                let clip_start := clip.start_time
                let clip_end := clip.start_time + clip.duration
                if clip_end > start ∧ clip_start < end_ then
                  result ++ [ActiveClip.audio clip]
                else result)
              result)
        init = init ++ tracks.flatMap (track_range_clips start end_) by
    simpa [Timeline.clips_in_range] using h tl.tracks []
  intro tracks
  induction tracks with
  | nil => intro init; simp
  | cons track rest ih =>
    intro init
    cases track with
    | video vt =>
      simp only [List.foldl_cons]
      rw [aux_range_fold_video start end_ vt.clips init, ih]
      simp [track_range_clips]
    | audio a =>
      simp only [List.foldl_cons]
      rw [aux_range_fold_audio start end_ a.clips init, ih]
      simp [track_range_clips]

lemma aux_mem_active_video (tl : Timeline) (t : ℚ) (c : VideoClip) :
    ActiveClip.video c ∈ tl.active_clips_at t ↔
      (∃ vt, Track.video vt ∈ tl.tracks ∧ c ∈ vt.clips) ∧
      (c.start_time ≤ t ∧ t < c.start_time + c.duration) := by
  rw [aux_active_clips_at_eq]
  simp only [List.mem_flatMap]
  constructor
  · rintro ⟨track, htrack, hmem⟩
    cases track with
    | video vt =>
      simp only [track_active_clips, List.mem_map, List.mem_filter,
        decide_eq_true_eq, ActiveClip.video.injEq] at hmem
      obtain ⟨c2, ⟨hc2, hcond⟩, rfl⟩ := hmem
      exact ⟨⟨vt, htrack, hc2⟩, hcond⟩
    | audio a => simp [track_active_clips] at hmem
  · rintro ⟨⟨vt, htrack, hclip⟩, hcond⟩
    refine ⟨Track.video vt, htrack, ?_⟩
    simp only [track_active_clips, List.mem_map, List.mem_filter, decide_eq_true_eq]
    exact ⟨c, ⟨hclip, hcond⟩, rfl⟩

lemma aux_mem_active_audio (tl : Timeline) (t : ℚ) (c : AudioClip) :
    ActiveClip.audio c ∈ tl.active_clips_at t ↔
      (∃ a, Track.audio a ∈ tl.tracks ∧ c ∈ a.clips) ∧
      (c.start_time ≤ t ∧ t < c.start_time + c.duration) := by
  rw [aux_active_clips_at_eq]
  simp only [List.mem_flatMap]
  constructor
  · rintro ⟨track, htrack, hmem⟩
    cases track with
    | video vt => simp [track_active_clips] at hmem
    | audio a =>
      simp only [track_active_clips, List.mem_map, List.mem_filter,
        decide_eq_true_eq, ActiveClip.audio.injEq] at hmem
      obtain ⟨c2, ⟨hc2, hcond⟩, rfl⟩ := hmem
      exact ⟨⟨a, htrack, hc2⟩, hcond⟩
  · rintro ⟨⟨a, htrack, hclip⟩, hcond⟩
    refine ⟨Track.audio a, htrack, ?_⟩
    simp only [track_active_clips, List.mem_map, List.mem_filter, decide_eq_true_eq]
    exact ⟨c, ⟨hclip, hcond⟩, rfl⟩

lemma aux_mem_range_video (tl : Timeline) (start end_ : ℚ) (c : VideoClip) :
    ActiveClip.video c ∈ tl.clips_in_range start end_ ↔
      (∃ vt, Track.video vt ∈ tl.tracks ∧ c ∈ vt.clips) ∧
      (c.start_time + c.duration > start ∧ c.start_time < end_) := by
  rw [aux_clips_in_range_eq]
  simp only [List.mem_flatMap]
  constructor
  · rintro ⟨track, htrack, hmem⟩
    cases track with
    | video vt =>
      simp only [track_range_clips, List.mem_map, List.mem_filter,
        decide_eq_true_eq, ActiveClip.video.injEq] at hmem
      obtain ⟨c2, ⟨hc2, hcond⟩, rfl⟩ := hmem
      exact ⟨⟨vt, htrack, hc2⟩, hcond⟩
    | audio a => simp [track_range_clips] at hmem
  · rintro ⟨⟨vt, htrack, hclip⟩, hcond⟩
    refine ⟨Track.video vt, htrack, ?_⟩
    simp only [track_range_clips, List.mem_map, List.mem_filter, decide_eq_true_eq]
    exact ⟨c, ⟨hclip, hcond⟩, rfl⟩

lemma aux_mem_range_audio (tl : Timeline) (start end_ : ℚ) (c : AudioClip) :
    ActiveClip.audio c ∈ tl.clips_in_range start end_ ↔
      (∃ a, Track.audio a ∈ tl.tracks ∧ c ∈ a.clips) ∧
      (c.start_time + c.duration > start ∧ c.start_time < end_) := by
  rw [aux_clips_in_range_eq]
  simp only [List.mem_flatMap]
  constructor
  · rintro ⟨track, htrack, hmem⟩
    cases track with
    | video vt => simp [track_range_clips] at hmem
    | audio a =>
      simp only [track_range_clips, List.mem_map, List.mem_filter,
        decide_eq_true_eq, ActiveClip.audio.injEq] at hmem
      obtain ⟨c2, ⟨hc2, hcond⟩, rfl⟩ := hmem
      exact ⟨⟨a, htrack, hc2⟩, hcond⟩
  · rintro ⟨⟨a, htrack, hclip⟩, hcond⟩
    refine ⟨Track.audio a, htrack, ?_⟩
    simp only [track_range_clips, List.mem_map, List.mem_filter, decide_eq_true_eq]
    exact ⟨c, ⟨hclip, hcond⟩, rfl⟩

lemma aux_is_active_at_eq (c : VideoClip) (time : ℚ) :
    c.is_active_at time = decide (c.start_time ≤ time ∧ time < c.start_time + c.duration) := by
  by_cases h1 : c.start_time ≤ time <;> by_cases h2 : time < c.start_time + c.duration <;>
    simp [VideoClip.is_active_at, h1, h2, ge_iff_le]

lemma aux_video_refine (time : ℚ) (tracks : List Track) :
    (tracks.filterMap fun track =>
      match track with
      | Track.video video_track => some video_track
      | _ => none).flatMap
      (fun video_track => video_track.clips.filter fun c =>
        decide (c.start_time ≤ time ∧ time < c.start_time + c.duration))
    = (tracks.flatMap (track_active_clips time)).filterMap
        (fun ac => match ac with
          | ActiveClip.video c => some c
          | ActiveClip.audio _ => none) := by
  induction tracks with
  | nil => simp
  | cons track rest ih =>
    cases track with
    | video vt =>
      simp only [List.filterMap_cons, List.flatMap_cons, track_active_clips,
        List.filterMap_append, ih]
      congr 1
      rw [List.filterMap_map]
      have hcomp : ((fun ac =>
          match ac with
          | ActiveClip.video c => some c
          | ActiveClip.audio _ => none) ∘ ActiveClip.video) = some (α := VideoClip) := rfl
      rw [hcomp, List.filterMap_some]
    | audio a =>
      simp only [List.filterMap_cons, List.flatMap_cons, track_active_clips,
        List.filterMap_append, ih]
      rw [List.filterMap_map]
      have hcomp : ((fun ac =>
          match ac with
          | ActiveClip.video c => some c
          | ActiveClip.audio _ => none) ∘ ActiveClip.audio) =
          (fun _ => (none : Option VideoClip)) := rfl
      rw [hcomp]
      simp

/-- C4: active_clips_at returns exactly the clips (video and audio) passing
the half-open test start_time <= t < start_time + duration, wrapped as
ActiveClip clones in track order then clip order (a flat concatenation of
per-track filters, no sorting by time); a clip of positive duration is
included at t = its start_time, and every clip is excluded at
t = its start_time + duration. -/
theorem active_clips_at_spec :
    ∀ (tl : Timeline) (t : ℚ),
      tl.active_clips_at t = tl.tracks.flatMap (track_active_clips t) ∧
      (∀ (c : VideoClip), ActiveClip.video c ∈ tl.active_clips_at t ↔
        (∃ vt, Track.video vt ∈ tl.tracks ∧ c ∈ vt.clips) ∧
        (c.start_time ≤ t ∧ t < c.start_time + c.duration)) ∧
      (∀ (c : AudioClip), ActiveClip.audio c ∈ tl.active_clips_at t ↔
        (∃ a, Track.audio a ∈ tl.tracks ∧ c ∈ a.clips) ∧
        (c.start_time ≤ t ∧ t < c.start_time + c.duration)) ∧
      (∀ (vt : VideoTrack) (c : VideoClip), Track.video vt ∈ tl.tracks → c ∈ vt.clips →
        0 < c.duration → t = c.start_time → ActiveClip.video c ∈ tl.active_clips_at t) ∧
      (∀ (c : VideoClip), t = c.start_time + c.duration →
        ActiveClip.video c ∉ tl.active_clips_at t) ∧
      (∀ (a : AudioTrack) (c : AudioClip), Track.audio a ∈ tl.tracks → c ∈ a.clips →
        0 < c.duration → t = c.start_time → ActiveClip.audio c ∈ tl.active_clips_at t) ∧
      (∀ (c : AudioClip), t = c.start_time + c.duration →
        ActiveClip.audio c ∉ tl.active_clips_at t) := by
  intro tl t
  refine ⟨aux_active_clips_at_eq tl t,
    fun c => aux_mem_active_video tl t c,
    fun c => aux_mem_active_audio tl t c, ?_, ?_, ?_, ?_⟩
  · intro vt c htrack hclip hdur ht
    rw [aux_mem_active_video]
    subst ht
    exact ⟨⟨vt, htrack, hclip⟩, le_refl _, by linarith⟩
  · intro c ht hmem
    rw [aux_mem_active_video] at hmem
    obtain ⟨-, -, hlt⟩ := hmem
    subst ht
    exact lt_irrefl _ hlt
  · intro a c htrack hclip hdur ht
    rw [aux_mem_active_audio]
    subst ht
    exact ⟨⟨a, htrack, hclip⟩, le_refl _, by linarith⟩
  · intro c ht hmem
    rw [aux_mem_active_audio] at hmem
    obtain ⟨-, -, hlt⟩ := hmem
    subst ht
    exact lt_irrefl _ hlt

/-- C4 witness: the sample video clip is included at its own start time. -/
theorem active_clips_at_spec_witness :
    Track.video vtrack_sample ∈ timeline_sample.tracks ∧
    vclip_sample ∈ vtrack_sample.clips ∧
    (0 : ℚ) < vclip_sample.duration ∧
    (0 : ℚ) = vclip_sample.start_time ∧
    ActiveClip.video vclip_sample ∈ timeline_sample.active_clips_at 0 := by
  have h1 : Track.video vtrack_sample ∈ timeline_sample.tracks := by
    simp [timeline_sample]
  have h2 : vclip_sample ∈ vtrack_sample.clips := by simp [vtrack_sample]
  have h3 : (0 : ℚ) < vclip_sample.duration := by norm_num [vclip_sample]
  have h4 : (0 : ℚ) = vclip_sample.start_time := by norm_num [vclip_sample]
  exact ⟨h1, h2, h3, h4,
    (active_clips_at_spec timeline_sample 0).2.2.2.1 vtrack_sample vclip_sample h1 h2 h3 h4⟩

/-- C5 counterexample: on the sample timeline, whose video clip starts at
0, the zero-width range (0, 0) at the clip start returns no matches, while
the zero-width range (5, 5) and the reversed range (7, 3) both return
matches — the opposite of the claimed empty- and reversed-range
behavior. -/
theorem clips_in_range_empty_range_counterexample :
    vclip_sample.start_time = 0 ∧
    timeline_sample.clips_in_range 0 0 = [] ∧
    timeline_sample.clips_in_range 5 5 =
      [ActiveClip.video vclip_sample, ActiveClip.audio aclip_sample] ∧
    timeline_sample.clips_in_range 7 3 =
      [ActiveClip.video vclip_sample, ActiveClip.audio aclip_sample] := by
  refine ⟨rfl, ?_, ?_, ?_⟩ <;> with_unfolding_all rfl

/-- C5 amended: clips_in_range returns exactly the clips passing the
overlap test clip_end > start && clip_start < end, in track order then
clip order; consequently a zero-width range (a, a) matches exactly the
clips whose open interval strictly contains a — a clip whose start equals
a is not matched, and a reversed or empty range can match clips. -/
theorem clips_in_range_spec :
    ∀ (tl : Timeline) (start end_ : ℚ),
      tl.clips_in_range start end_ = tl.tracks.flatMap (track_range_clips start end_) ∧
      (∀ (c : VideoClip), ActiveClip.video c ∈ tl.clips_in_range start end_ ↔
        (∃ vt, Track.video vt ∈ tl.tracks ∧ c ∈ vt.clips) ∧
        (c.start_time + c.duration > start ∧ c.start_time < end_)) ∧
      (∀ (c : AudioClip), ActiveClip.audio c ∈ tl.clips_in_range start end_ ↔
        (∃ a, Track.audio a ∈ tl.tracks ∧ c ∈ a.clips) ∧
        (c.start_time + c.duration > start ∧ c.start_time < end_)) ∧
      (∀ (c : VideoClip), ActiveClip.video c ∈ tl.clips_in_range start start ↔
        (∃ vt, Track.video vt ∈ tl.tracks ∧ c ∈ vt.clips) ∧
        (c.start_time < start ∧ start < c.start_time + c.duration)) := by
  intro tl start end_
  refine ⟨aux_clips_in_range_eq tl start end_,
    fun c => aux_mem_range_video tl start end_ c,
    fun c => aux_mem_range_audio tl start end_ c, ?_⟩
  intro c
  rw [aux_mem_range_video]
  constructor
  · rintro ⟨hocc, hgt, hlt⟩
    exact ⟨hocc, hlt, hgt⟩
  · rintro ⟨hocc, hlt, hgt⟩
    exact ⟨hocc, hgt, hlt⟩

/-- C10: active_video_clips_at returns exactly the video clips of
active_clips_at in the same relative order, and the per-clip test
is_active_at agrees with the half-open test used by active_clips_at. -/
theorem active_video_clips_at_refines :
    ∀ (tl : Timeline) (time : ℚ),
      tl.active_video_clips_at time =
        (tl.active_clips_at time).filterMap
          (fun ac => match ac with
            | ActiveClip.video c => some c
            | ActiveClip.audio _ => none) ∧
      (∀ (c : VideoClip), c.is_active_at time = true ↔
        (c.start_time ≤ time ∧ time < c.start_time + c.duration)) := by
  intro tl time
  constructor
  · rw [aux_active_clips_at_eq]
    unfold Timeline.active_video_clips_at
    simp only [aux_is_active_at_eq]
    exact aux_video_refine time tl.tracks
  · intro c
    rw [aux_is_active_at_eq]
    simp

lemma aux_cut_isSome {T : Type} [ClipSplit T] (clip : T) (p : ℚ)
    (h : p > Clip.start_time clip ∧ p < Clip.start_time clip + Clip.duration clip) :
    ∃ l r, cut_clip_at clip p = some (l, r) := by
  simp only [cut_clip_at]
  rw [if_neg]
  · exact ⟨_, _, rfl⟩
  · push_neg
    exact ⟨h.1, h.2⟩

lemma aux_split_clips_video_none (p : ℚ) (clips : List VideoClip) :
    split_clips_video p clips = none ↔
      ∀ c ∈ clips, ¬(p > c.start_time ∧ p < c.start_time + c.duration) := by
  induction clips with
  | nil => simp [split_clips_video]
  | cons clip rest ih =>
    simp only [split_clips_video]
    by_cases h : p > clip.start_time ∧ p < clip.start_time + clip.duration
    · rw [if_pos h]
      obtain ⟨l, r, hcut⟩ := aux_cut_isSome clip p h
      rw [hcut]
      refine iff_of_false (by simp) ?_
      push_neg
      exact ⟨clip, List.mem_cons_self clip rest, h⟩
    · rw [if_neg h]
      rw [Option.map_eq_none', ih, List.forall_mem_cons]
      exact (and_iff_right h).symm

lemma aux_split_clips_audio_none (p : ℚ) (clips : List AudioClip) :
    split_clips_audio p clips = none ↔
      ∀ c ∈ clips, ¬(p > c.start_time ∧ p < c.start_time + c.duration) := by
  induction clips with
  | nil => simp [split_clips_audio]
  | cons clip rest ih =>
    simp only [split_clips_audio]
    by_cases h : p > clip.start_time ∧ p < clip.start_time + clip.duration
    · rw [if_pos h]
      obtain ⟨l, r, hcut⟩ := aux_cut_isSome clip p h
      rw [hcut]
      refine iff_of_false (by simp) ?_
      push_neg
      exact ⟨clip, List.mem_cons_self clip rest, h⟩
    · rw [if_neg h]
      rw [Option.map_eq_none', ih, List.forall_mem_cons]
      exact (and_iff_right h).symm

lemma aux_split_clips_video_some (p : ℚ) (clips : List VideoClip) :
    ∀ (out : List VideoClip), split_clips_video p clips = some out →
      ∃ pre clip post left right,
        clips = pre ++ clip :: post ∧
        (∀ c ∈ pre, ¬(p > c.start_time ∧ p < c.start_time + c.duration)) ∧
        (p > clip.start_time ∧ p < clip.start_time + clip.duration) ∧
        cut_clip_at clip p = some (left, right) ∧
        out = pre ++ left :: right :: post := by
  induction clips with
  | nil => simp [split_clips_video]
  | cons clip rest ih =>
    intro out hsome
    simp only [split_clips_video] at hsome
    by_cases h : p > clip.start_time ∧ p < clip.start_time + clip.duration
    · rw [if_pos h] at hsome
      obtain ⟨l, r, hcut⟩ := aux_cut_isSome clip p h
      rw [hcut] at hsome
      obtain rfl : l :: r :: rest = out := by injection hsome
      exact ⟨[], clip, rest, l, r, rfl, by simp, h, hcut, rfl⟩
    · rw [if_neg h] at hsome
      cases hmap : split_clips_video p rest with
      | none => rw [hmap] at hsome; simp at hsome
      | some out2 =>
        rw [hmap] at hsome
        obtain rfl : clip :: out2 = out := by injection hsome
        obtain ⟨pre, c0, post, l, r, hsplit, hpre, hcond, hcut, hout⟩ := ih out2 hmap
        refine ⟨clip :: pre, c0, post, l, r, by simp [hsplit], ?_, hcond, hcut, by simp [hout]⟩
        rw [List.forall_mem_cons]
        exact ⟨h, hpre⟩

lemma aux_split_clips_audio_some (p : ℚ) (clips : List AudioClip) :
    ∀ (out : List AudioClip), split_clips_audio p clips = some out →
      ∃ pre clip post left right,
        clips = pre ++ clip :: post ∧
        (∀ c ∈ pre, ¬(p > c.start_time ∧ p < c.start_time + c.duration)) ∧
        (p > clip.start_time ∧ p < clip.start_time + clip.duration) ∧
        cut_clip_at clip p = some (left, right) ∧
        out = pre ++ left :: right :: post := by
  induction clips with
  | nil => simp [split_clips_audio]
  | cons clip rest ih =>
    intro out hsome
    simp only [split_clips_audio] at hsome
    by_cases h : p > clip.start_time ∧ p < clip.start_time + clip.duration
    · rw [if_pos h] at hsome
      obtain ⟨l, r, hcut⟩ := aux_cut_isSome clip p h
      rw [hcut] at hsome
      obtain rfl : l :: r :: rest = out := by injection hsome
      exact ⟨[], clip, rest, l, r, rfl, by simp, h, hcut, rfl⟩
    · rw [if_neg h] at hsome
      cases hmap : split_clips_audio p rest with
      | none => rw [hmap] at hsome; simp at hsome
      | some out2 =>
        rw [hmap] at hsome
        obtain rfl : clip :: out2 = out := by injection hsome
        obtain ⟨pre, c0, post, l, r, hsplit, hpre, hcond, hcut, hout⟩ := ih out2 hmap
        refine ⟨clip :: pre, c0, post, l, r, by simp [hsplit], ?_, hcond, hcut, by simp [hout]⟩
        rw [List.forall_mem_cons]
        exact ⟨h, hpre⟩

lemma aux_split_tracks_false (track_id : String) (p : ℚ) (ts : List Track) :
    (split_tracks track_id p ts).2 = false ↔
      ∀ t ∈ ts, ¬ track_has_clip_at track_id p t := by
  induction ts with
  | nil => simp [split_tracks]
  | cons track rest ih =>
    cases track with
    | video vt =>
      by_cases hid : vt.id = track_id
      · cases hsp : split_clips_video p vt.clips with
        | some out =>
          simp only [split_tracks, if_pos hid, hsp]
          refine iff_of_false (by simp) ?_
          push_neg
          refine ⟨Track.video vt, List.mem_cons_self _ _, ?_⟩
          obtain ⟨cpre, c0, cpost, l, r, hsplit, -, hcond, -, -⟩ :=
            aux_split_clips_video_some p vt.clips out hsp
          exact ⟨hid, c0, by simp [hsplit], hcond⟩
        | none =>
          simp only [split_tracks, if_pos hid, hsp]
          rw [List.forall_mem_cons, ih]
          have hno : ¬ track_has_clip_at track_id p (Track.video vt) := by
            rintro ⟨-, c0, hc0, hcond⟩
            exact ((aux_split_clips_video_none p vt.clips).1 hsp c0 hc0) hcond
          exact (and_iff_right hno).symm
      · simp only [split_tracks, if_neg hid]
        rw [List.forall_mem_cons, ih]
        have hno : ¬ track_has_clip_at track_id p (Track.video vt) := by
          rintro ⟨heq, -⟩
          exact hid heq
        exact (and_iff_right hno).symm
    | audio a =>
      by_cases hid : a.id = track_id
      · cases hsp : split_clips_audio p a.clips with
        | some out =>
          simp only [split_tracks, if_pos hid, hsp]
          refine iff_of_false (by simp) ?_
          push_neg
          refine ⟨Track.audio a, List.mem_cons_self _ _, ?_⟩
          obtain ⟨cpre, c0, cpost, l, r, hsplit, -, hcond, -, -⟩ :=
            aux_split_clips_audio_some p a.clips out hsp
          exact ⟨hid, c0, by simp [hsplit], hcond⟩
        | none =>
          simp only [split_tracks, if_pos hid, hsp]
          rw [List.forall_mem_cons, ih]
          have hno : ¬ track_has_clip_at track_id p (Track.audio a) := by
            rintro ⟨-, c0, hc0, hcond⟩
            exact ((aux_split_clips_audio_none p a.clips).1 hsp c0 hc0) hcond
          exact (and_iff_right hno).symm
      · simp only [split_tracks, if_neg hid]
        rw [List.forall_mem_cons, ih]
        have hno : ¬ track_has_clip_at track_id p (Track.audio a) := by
          rintro ⟨heq, -⟩
          exact hid heq
        exact (and_iff_right hno).symm

lemma aux_split_tracks_false_unchanged (track_id : String) (p : ℚ) (ts : List Track) :
    (split_tracks track_id p ts).2 = false → (split_tracks track_id p ts).1 = ts := by
  induction ts with
  | nil => simp [split_tracks]
  | cons track rest ih =>
    intro hfalse
    cases track with
    | video vt =>
      by_cases hid : vt.id = track_id
      · cases hsp : split_clips_video p vt.clips with
        | some out =>
          simp only [split_tracks, if_pos hid, hsp] at hfalse
          exact Bool.noConfusion hfalse
        | none =>
          simp only [split_tracks, if_pos hid, hsp] at hfalse ⊢
          rw [ih hfalse]
      · simp only [split_tracks, if_neg hid] at hfalse ⊢
        rw [ih hfalse]
    | audio a =>
      by_cases hid : a.id = track_id
      · cases hsp : split_clips_audio p a.clips with
        | some out =>
          simp only [split_tracks, if_pos hid, hsp] at hfalse
          exact Bool.noConfusion hfalse
        | none =>
          simp only [split_tracks, if_pos hid, hsp] at hfalse ⊢
          rw [ih hfalse]
      · simp only [split_tracks, if_neg hid] at hfalse ⊢
        rw [ih hfalse]

lemma aux_split_tracks_true (track_id : String) (p : ℚ) (ts : List Track) :
    (split_tracks track_id p ts).2 = true →
      ∃ pre t post t2,
        ts = pre ++ t :: post ∧
        (∀ t2 ∈ pre, ¬ track_has_clip_at track_id p t2) ∧
        track_has_clip_at track_id p t ∧
        track_split_result p t t2 ∧
        (split_tracks track_id p ts).1 = pre ++ t2 :: post := by
  induction ts with
  | nil => simp [split_tracks]
  | cons track rest ih =>
    intro htrue
    cases track with
    | video vt =>
      by_cases hid : vt.id = track_id
      · cases hsp : split_clips_video p vt.clips with
        | some out =>
          obtain ⟨cpre, c0, cpost, l, r, hsplit, hcpre, hcond, hcut, hout⟩ :=
            aux_split_clips_video_some p vt.clips out hsp
          refine ⟨[], Track.video vt, rest, Track.video { vt with clips := out },
            by simp, by simp, ⟨hid, c0, by simp [hsplit], hcond⟩, ?_, ?_⟩
          · exact ⟨rfl, rfl, rfl, cpre, c0, cpost, l, r, hsplit, hcpre, hcond, hcut, hout⟩
          · simp only [split_tracks, if_pos hid, hsp]
            simp
        | none =>
          have htrue2 : (split_tracks track_id p rest).2 = true := by
            simpa only [split_tracks, if_pos hid, hsp] using htrue
          obtain ⟨pre, t, post, t2, hts, hpre, hhas, hres, hfst⟩ := ih htrue2
          have hno : ¬ track_has_clip_at track_id p (Track.video vt) := by
            rintro ⟨-, c0, hc0, hcond⟩
            exact ((aux_split_clips_video_none p vt.clips).1 hsp c0 hc0) hcond
          refine ⟨Track.video vt :: pre, t, post, t2, by simp [hts], ?_, hhas, hres, ?_⟩
          · rw [List.forall_mem_cons]
            exact ⟨hno, hpre⟩
          · simp only [split_tracks, if_pos hid, hsp]
            simp [hfst]
      · have htrue2 : (split_tracks track_id p rest).2 = true := by
          simpa only [split_tracks, if_neg hid] using htrue
        obtain ⟨pre, t, post, t2, hts, hpre, hhas, hres, hfst⟩ := ih htrue2
        have hno : ¬ track_has_clip_at track_id p (Track.video vt) := by
          rintro ⟨heq, -⟩
          exact hid heq
        refine ⟨Track.video vt :: pre, t, post, t2, by simp [hts], ?_, hhas, hres, ?_⟩
        · rw [List.forall_mem_cons]
          exact ⟨hno, hpre⟩
        · simp only [split_tracks, if_neg hid]
          simp [hfst]
    | audio a =>
      by_cases hid : a.id = track_id
      · cases hsp : split_clips_audio p a.clips with
        | some out =>
          obtain ⟨cpre, c0, cpost, l, r, hsplit, hcpre, hcond, hcut, hout⟩ :=
            aux_split_clips_audio_some p a.clips out hsp
          refine ⟨[], Track.audio a, rest, Track.audio { a with clips := out },
            by simp, by simp, ⟨hid, c0, by simp [hsplit], hcond⟩, ?_, ?_⟩
          · exact ⟨rfl, rfl, rfl, cpre, c0, cpost, l, r, hsplit, hcpre, hcond, hcut, hout⟩
          · simp only [split_tracks, if_pos hid, hsp]
            simp
        | none =>
          have htrue2 : (split_tracks track_id p rest).2 = true := by
            simpa only [split_tracks, if_pos hid, hsp] using htrue
          obtain ⟨pre, t, post, t2, hts, hpre, hhas, hres, hfst⟩ := ih htrue2
          have hno : ¬ track_has_clip_at track_id p (Track.audio a) := by
            rintro ⟨-, c0, hc0, hcond⟩
            exact ((aux_split_clips_audio_none p a.clips).1 hsp c0 hc0) hcond
          refine ⟨Track.audio a :: pre, t, post, t2, by simp [hts], ?_, hhas, hres, ?_⟩
          · rw [List.forall_mem_cons]
            exact ⟨hno, hpre⟩
          · simp only [split_tracks, if_pos hid, hsp]
            simp [hfst]
      · have htrue2 : (split_tracks track_id p rest).2 = true := by
          simpa only [split_tracks, if_neg hid] using htrue
        obtain ⟨pre, t, post, t2, hts, hpre, hhas, hres, hfst⟩ := ih htrue2
        have hno : ¬ track_has_clip_at track_id p (Track.audio a) := by
          rintro ⟨heq, -⟩
          exact hid heq
        refine ⟨Track.audio a :: pre, t, post, t2, by simp [hts], ?_, hhas, hres, ?_⟩
        · rw [List.forall_mem_cons]
          exact ⟨hno, hpre⟩
        · simp only [split_tracks, if_neg hid]
          simp [hfst]

/-- C3: split_clip_at_playhead returns true exactly when some track with
the given id holds a clip whose open interval strictly contains the
playhead; on failure the timeline is unchanged; on success the first such
track has its first such clip replaced in place by the (left, right) pair
from cut_clip_at, all other clips and tracks and the remaining timeline
fields preserved. -/
theorem split_clip_at_playhead_spec :
    ∀ (tl : Timeline) (track_id : String) (playhead : ℚ),
      ((tl.split_clip_at_playhead track_id playhead).2 = true ↔
        ∃ t ∈ tl.tracks, track_has_clip_at track_id playhead t) ∧
      ((tl.split_clip_at_playhead track_id playhead).2 = false →
        (tl.split_clip_at_playhead track_id playhead).1 = tl) ∧
      ((tl.split_clip_at_playhead track_id playhead).2 = true →
        ∃ pre t post t2,
          tl.tracks = pre ++ t :: post ∧
          (∀ t2 ∈ pre, ¬ track_has_clip_at track_id playhead t2) ∧
          track_has_clip_at track_id playhead t ∧
          track_split_result playhead t t2 ∧
          (tl.split_clip_at_playhead track_id playhead).1.tracks = pre ++ t2 :: post) ∧
      (tl.split_clip_at_playhead track_id playhead).1.duration = tl.duration ∧
      (tl.split_clip_at_playhead track_id playhead).1.frame_rate = tl.frame_rate ∧
      (tl.split_clip_at_playhead track_id playhead).1.resolution = tl.resolution := by
  intro tl track_id playhead
  refine ⟨?_, ?_, ?_, rfl, rfl, rfl⟩
  · constructor
    · intro h
      obtain ⟨pre, t, post, t2, hts, hpre, hhas, -, -⟩ :=
        aux_split_tracks_true track_id playhead tl.tracks h
      exact ⟨t, by simp [hts], hhas⟩
    · rintro ⟨t, ht, hhas⟩
      by_contra hne
      have hfalse : (split_tracks track_id playhead tl.tracks).2 = false := by
        cases h : (split_tracks track_id playhead tl.tracks).2
        · rfl
        · exact absurd h hne
      exact ((aux_split_tracks_false track_id playhead tl.tracks).1 hfalse t ht) hhas
  · intro hfalse
    have h1 : (split_tracks track_id playhead tl.tracks).1 = tl.tracks :=
      aux_split_tracks_false_unchanged track_id playhead tl.tracks hfalse
    show ({ tl with tracks := (split_tracks track_id playhead tl.tracks).1 } : Timeline) = tl
    rw [h1]
  · intro htrue
    obtain ⟨pre, t, post, t2, hts, hpre, hhas, hres, hfst⟩ :=
      aux_split_tracks_true track_id playhead tl.tracks htrue
    exact ⟨pre, t, post, t2, hts, hpre, hhas, hres, hfst⟩

/-- C3 witness: splitting the sample timeline on track vt1 at playhead 4
succeeds, and that track indeed holds a clip strictly containing 4. -/
theorem split_clip_at_playhead_spec_witness :
    (timeline_sample.split_clip_at_playhead "vt1" 4).2 = true ∧
    ∃ t ∈ timeline_sample.tracks, track_has_clip_at "vt1" 4 t := by
  have h2 : ∃ t ∈ timeline_sample.tracks, track_has_clip_at "vt1" 4 t := by
    refine ⟨Track.video vtrack_sample, by simp [timeline_sample], ?_⟩
    refine ⟨rfl, vclip_sample, by simp [vtrack_sample], ?_⟩
    norm_num [vclip_sample]
  exact ⟨(split_clip_at_playhead_spec timeline_sample "vt1" 4).1.mpr h2, h2⟩

lemma aux_first_video_clip_eq (clips : List ActiveClip) :
    first_video_clip clips =
      (clips.filterMap (fun ac => match ac with
        | ActiveClip.video c => some c
        | ActiveClip.audio _ => none)).head? := by
  induction clips with
  | nil => rfl
  | cons c rest ih =>
    cases c with
    | video v => simp [first_video_clip, List.find?]
    | audio a =>
      simp only [first_video_clip, List.find?, List.filterMap_cons] at ih ⊢
      exact ih

lemma aux_render_frame_hit (decode : Decoder) (r : TimelineRenderer) (t : ℚ)
    (frame : VideoFrame)
    (h : r.frame_cache.lookup (frame_number_of t r.frame_rate) = some frame) :
    r.render_frame decode t = (frame, r, false) := by
  simp only [TimelineRenderer.render_frame]
  rw [h]

lemma aux_render_frame_lookup (decode : Decoder) (r : TimelineRenderer) (t : ℚ) :
    (r.render_frame decode t).2.1.frame_rate = r.frame_rate ∧
    (r.render_frame decode t).2.1.frame_cache.lookup (frame_number_of t r.frame_rate) =
      some (r.render_frame decode t).1 := by
  cases hl : r.frame_cache.lookup (frame_number_of t r.frame_rate) with
  | some frame =>
    rw [aux_render_frame_hit decode r t frame hl]
    exact ⟨rfl, hl⟩
  | none =>
    simp only [TimelineRenderer.render_frame]
    rw [hl]
    cases hsel : first_video_clip (r.timeline.active_clips_at t) with
    | some clip =>
      refine ⟨rfl, ?_⟩
      simp [List.lookup]
    | none =>
      refine ⟨rfl, ?_⟩
      simp [List.lookup]

/-- C6: on a cache miss render_frame always returns a frame (never
propagates a decode failure) whose buffer has exactly width*height*4
bytes; the consulted clip is the first active video clip in track order
and the decoder is asked at local_time = t - start_time + in_point; if no
video clip is active, the decoder fails, or the decoded size mismatches,
the data is the zero-filled buffer, and only a correctly sized decode
result is returned verbatim. -/
theorem render_frame_fallback_spec :
    ∀ (decode : Decoder) (r : TimelineRenderer) (t : ℚ),
      r.frame_cache.lookup (frame_number_of t r.frame_rate) = none →
      (r.render_frame decode t).1.width = r.width ∧
      (r.render_frame decode t).1.height = r.height ∧
      (r.render_frame decode t).1.timestamp = t ∧
      (r.render_frame decode t).1.frame_number = frame_number_of t r.frame_rate ∧
      (r.render_frame decode t).1.data.length = r.width * r.height * 4 ∧
      first_video_clip (r.timeline.active_clips_at t) =
        ((r.timeline.active_clips_at t).filterMap
          (fun ac => match ac with
            | ActiveClip.video c => some c
            | ActiveClip.audio _ => none)).head? ∧
      (first_video_clip (r.timeline.active_clips_at t) = none →
        (r.render_frame decode t).1.data = List.replicate (r.width * r.height * 4) 0) ∧
      (∀ clip, first_video_clip (r.timeline.active_clips_at t) = some clip →
        (decode clip.asset_path (t - clip.start_time + clip.in_point) r.width r.height = none →
          (r.render_frame decode t).1.data = List.replicate (r.width * r.height * 4) 0) ∧
        (∀ fd,
          decode clip.asset_path (t - clip.start_time + clip.in_point) r.width r.height = some fd →
          (fd.length ≠ r.width * r.height * 4 →
            (r.render_frame decode t).1.data = List.replicate (r.width * r.height * 4) 0) ∧
          (fd.length = r.width * r.height * 4 →
            (r.render_frame decode t).1.data = fd))) := by
  intro decode r t hmiss
  cases hsel : first_video_clip (r.timeline.active_clips_at t) with
  | none =>
    have hout : r.render_frame decode t =
        ({ data := List.replicate (r.width * r.height * 4) 0, width := r.width,
           height := r.height, timestamp := t,
           frame_number := frame_number_of t r.frame_rate },
         { r with frame_cache :=
             (frame_number_of t r.frame_rate,
              { data := List.replicate (r.width * r.height * 4) 0, width := r.width,
                height := r.height, timestamp := t,
                frame_number := frame_number_of t r.frame_rate }) :: r.frame_cache },
         false) := by
      simp only [TimelineRenderer.render_frame]
      rw [hmiss, hsel]
    rw [hout]
    refine ⟨rfl, rfl, rfl, rfl, by simp,
      hsel ▸ aux_first_video_clip_eq (r.timeline.active_clips_at t), fun _ => rfl, ?_⟩
    intro clip hclip
    exact Option.noConfusion hclip
  | some clip =>
    cases hdec : decode clip.asset_path (t - clip.start_time + clip.in_point) r.width r.height with
    | none =>
      have hout : (r.render_frame decode t).1 =
          { data := List.replicate (r.width * r.height * 4) 0, width := r.width,
            height := r.height, timestamp := t,
            frame_number := frame_number_of t r.frame_rate } := by
        simp only [TimelineRenderer.render_frame]
        rw [hmiss, hsel]
        simp only [hdec]
      rw [hout]
      refine ⟨rfl, rfl, rfl, rfl, by simp,
        hsel ▸ aux_first_video_clip_eq (r.timeline.active_clips_at t), ?_, ?_⟩
      · intro h
        exact Option.noConfusion h
      · intro clip2 hclip2
        obtain rfl : clip = clip2 := by injection hclip2
        refine ⟨fun _ => rfl, ?_⟩
        intro fd hfd
        rw [hdec] at hfd
        exact Option.noConfusion hfd
    | some fd =>
      by_cases hlen : fd.length = r.width * r.height * 4
      · have hout : (r.render_frame decode t).1 =
            { data := fd, width := r.width, height := r.height, timestamp := t,
              frame_number := frame_number_of t r.frame_rate } := by
          simp only [TimelineRenderer.render_frame]
          rw [hmiss, hsel]
          simp only [hdec]
          rw [if_pos (by simpa using hlen)]
        rw [hout]
        refine ⟨rfl, rfl, rfl, rfl, hlen,
          hsel ▸ aux_first_video_clip_eq (r.timeline.active_clips_at t), ?_, ?_⟩
        · intro h
          exact Option.noConfusion h
        · intro clip2 hclip2
          obtain rfl : clip = clip2 := by injection hclip2
          refine ⟨?_, ?_⟩
          · intro h
            rw [hdec] at h
            exact Option.noConfusion h
          · intro fd2 hfd2
            obtain rfl : fd = fd2 := by
              rw [hdec] at hfd2
              injection hfd2
            exact ⟨fun h => absurd hlen h, fun _ => rfl⟩
      · have hout : (r.render_frame decode t).1 =
            { data := List.replicate (r.width * r.height * 4) 0, width := r.width,
              height := r.height, timestamp := t,
              frame_number := frame_number_of t r.frame_rate } := by
          simp only [TimelineRenderer.render_frame]
          rw [hmiss, hsel]
          simp only [hdec]
          rw [if_neg (by simpa using hlen)]
        rw [hout]
        refine ⟨rfl, rfl, rfl, rfl, by simp,
          hsel ▸ aux_first_video_clip_eq (r.timeline.active_clips_at t), ?_, ?_⟩
        · intro h
          exact Option.noConfusion h
        · intro clip2 hclip2
          obtain rfl : clip = clip2 := by injection hclip2
          refine ⟨?_, ?_⟩
          · intro h
            rw [hdec] at h
          · intro fd2 hfd2
            obtain rfl : fd = fd2 := by
              rw [hdec] at hfd2
              injection hfd2
            exact ⟨fun _ => rfl, fun h => absurd h hlen⟩

/-- C6 witness: rendering the sample renderer at time 20, where no clip is
active and the cache is empty, yields the zero-filled buffer. -/
theorem render_frame_fallback_spec_witness :
    renderer_sample.frame_cache.lookup (frame_number_of 20 renderer_sample.frame_rate) = none ∧
    first_video_clip (renderer_sample.timeline.active_clips_at 20) = none ∧
    (renderer_sample.render_frame decoder_none 20).1.data =
      List.replicate (renderer_sample.width * renderer_sample.height * 4) 0 := by
  have hmiss : renderer_sample.frame_cache.lookup
      (frame_number_of 20 renderer_sample.frame_rate) = none := rfl
  have hsel : first_video_clip (renderer_sample.timeline.active_clips_at 20) = none := by
    with_unfolding_all rfl
  exact ⟨hmiss, hsel,
    (render_frame_fallback_spec decoder_none renderer_sample 20 hmiss).2.2.2.2.2.2.1 hsel⟩

/-- C7 counterexample: at t = -1 with frame_rate 30 the code computes frame
number 0 (the saturating cast), not floor(t * frame_rate) = -30. -/
theorem render_frame_negative_time_frame_number :
    (renderer_sample.render_frame decoder_none (-1)).1.frame_number = 0 ∧
    renderer_sample.frame_rate = 30 ∧
    frame_number_of (-1) 30 = 0 ∧
    ⌊((-1 : ℚ)) * 30⌋ = -30 ∧ ((0 : ℤ) ≠ -30) := by
  refine ⟨?_, rfl, ?_, by norm_num, by norm_num⟩
  · with_unfolding_all rfl
  · with_unfolding_all rfl

/-- C7 amended: for a nonnegative product t*frame_rate under 2^64 the
frame number is exactly floor(t*frame_rate) (the cast clamps negative
products to 0); a cache hit returns the cached frame without decoding and
without touching the state; and any second render_frame call mapping to
the same frame number with no intervening clear_cache returns the
byte-identical first frame, leaves the state unchanged and performs no
decode. -/
theorem render_frame_cache_spec :
    (∀ (t fr : ℚ), 0 ≤ t * fr → t * fr < 2 ^ 64 →
      (frame_number_of t fr : ℤ) = ⌊t * fr⌋) ∧
    (∀ (decode : Decoder) (r : TimelineRenderer) (t : ℚ) (frame : VideoFrame),
      r.frame_cache.lookup (frame_number_of t r.frame_rate) = some frame →
      r.render_frame decode t = (frame, r, false)) ∧
    (∀ (decode decode2 : Decoder) (r : TimelineRenderer) (t t2 : ℚ),
      frame_number_of t2 r.frame_rate = frame_number_of t r.frame_rate →
      (r.render_frame decode t).2.1.render_frame decode2 t2 =
        ((r.render_frame decode t).1, (r.render_frame decode t).2.1, false)) := by
  refine ⟨?_, ?_, ?_⟩
  · intro t fr h0 h1
    have hf0 : 0 ≤ ⌊t * fr⌋ := Int.floor_nonneg.mpr h0
    have hf1 : (⌊t * fr⌋ : ℚ) < 2 ^ 64 := lt_of_le_of_lt (Int.floor_le (t * fr)) h1
    have hf1' : ⌊t * fr⌋ < (2 : ℤ) ^ 64 := by exact_mod_cast hf1
    unfold frame_number_of
    omega
  · intro decode r t frame h
    exact aux_render_frame_hit decode r t frame h
  · intro decode decode2 r t t2 heq
    obtain ⟨hfr, hlook⟩ := aux_render_frame_lookup decode r t
    have h2 : (r.render_frame decode t).2.1.frame_cache.lookup
        (frame_number_of t2 (r.render_frame decode t).2.1.frame_rate) =
        some (r.render_frame decode t).1 := by
      rw [hfr, heq]
      exact hlook
    exact aux_render_frame_hit decode2 (r.render_frame decode t).2.1 t2
      (r.render_frame decode t).1 h2

/-- C7 witness: the floor formula at t = 4, frame rate 30, and two
consecutive renders of the sample renderer at t = 4 returning the identical
frame with no decode on the second call. -/
theorem render_frame_cache_spec_witness :
    (0 : ℚ) ≤ 4 * 30 ∧ ((4 : ℚ) * 30) < 2 ^ 64 ∧
    (frame_number_of 4 30 : ℤ) = ⌊(4 : ℚ) * 30⌋ ∧
    (renderer_sample.render_frame decoder_none 4).2.1.render_frame decoder_none 4 =
      ((renderer_sample.render_frame decoder_none 4).1,
       (renderer_sample.render_frame decoder_none 4).2.1, false) :=
  ⟨by norm_num, by norm_num,
   render_frame_cache_spec.1 4 30 (by norm_num) (by norm_num),
   render_frame_cache_spec.2.2 decoder_none decoder_none renderer_sample 4 4 rfl⟩

/-- C8: evaluating seek(-5.0) on the sample bridge (timeline duration 10,
is_playing true, playback_rate 1, one wall second since last_update): the
clamp first sets the playhead to 0, but seek calls the full update(), whose
elapsed-time advance then moves the playhead to 1, not the claimed 0;
is_playing is left unchanged. -/
theorem seek_advances_playhead_while_playing :
    bridge_sample.timeline.duration = 10 ∧
    bridge_sample.playback_state.is_playing = true ∧
    bridge_sample.playback_state.playback_rate = 1 ∧
    bridge_sample.last_update = 0 ∧
    (bridge_sample.seek decoder_none (-5) 1).playback_state.playhead = 1 ∧
    (bridge_sample.seek decoder_none (-5) 1).playback_state.is_playing = true := by
  refine ⟨rfl, rfl, rfl, rfl, ?_, ?_⟩
  · with_unfolding_all rfl
  · with_unfolding_all rfl

/-- C9 counterexample: a clip whose out_point is at or before its in_point
and whose start_time is negative is representable, enters a Timeline
unhindered, and is returned unchanged by clips_on_track — no construction
validation exists. -/
theorem malformed_clip_enters_timeline :
    malformed_clip.out_point ≤ malformed_clip.in_point ∧
    malformed_clip.start_time < 0 ∧
    timeline_with_malformed.clips_on_track "vt_bad" =
      some [ActiveClip.video malformed_clip] := by
  refine ⟨by norm_num [malformed_clip], by norm_num [malformed_clip], ?_⟩
  with_unfolding_all rfl

/-- C9 amended: VideoClip and AudioClip are plain records with public
fields and no constructor; no invariant is checked anywhere, so any clip —
in particular one with out_point <= in_point, negative start_time or
non-positive duration — can be placed on a track and enters the Timeline. -/
theorem clip_construction_unvalidated :
    ∀ (c : VideoClip),
      c.out_point ≤ c.in_point ∨ c.start_time < 0 ∨ c.duration ≤ 0 →
      (Timeline.mk [Track.video (VideoTrack.mk "t1" "T" [c] false)]
          0 30 (1920, 1080)).clips_on_track "t1" = some [ActiveClip.video c] := by
  intro c _
  simp [Timeline.clips_on_track, List.find?]

/-- C9 amended witness: the malformed sample clip enters a timeline. -/
theorem clip_construction_unvalidated_witness :
    (malformed_clip.out_point ≤ malformed_clip.in_point ∨
      malformed_clip.start_time < 0 ∨ malformed_clip.duration ≤ 0) ∧
    (Timeline.mk [Track.video (VideoTrack.mk "t1" "T" [malformed_clip] false)]
        0 30 (1920, 1080)).clips_on_track "t1" = some [ActiveClip.video malformed_clip] :=
  ⟨Or.inl (by norm_num [malformed_clip]),
   clip_construction_unvalidated malformed_clip (Or.inl (by norm_num [malformed_clip]))⟩
